import Mathlib

/-!
Shallow embedding of the rate-limiting / retry / batch-orchestration core of
the `pythion` batch analysis tool (src/rate_limiter.py, src/gemini_api.py,
src/kimi_api.py, src/deepseek_api.py, src/api_factory.py).

Wall-clock time is modelled by rationals (seconds since epoch); `time.sleep`
is modelled as exact, so a call that sleeps for `d` seconds returns at
`entry + d`.  GUI dialogs are modelled by explicit user-input parameters
(`none` = the user accepts the dialog's prefilled default).
-/

namespace Pythion

/-! ## Rate limiter (src/rate_limiter.py) -/

/-- The `RateLimitConfig` dataclass: wait time in minutes and a progress flag. -/
structure RateLimitConfig where
  wait_minutes : ℚ
  show_progress : Bool
deriving DecidableEq, Repr

/-- The `RateLimiter` state: its configuration and the `last_call_time`
timestamp (`0` = never called). -/
structure RateLimiter where
  config : RateLimitConfig
  last_call_time : ℚ
deriving DecidableEq, Repr

/-- Amount slept by the progress-bar loop of `RateLimiter.wait`: the loop
`while remaining > 0: sleep(0.1); remaining -= 0.1` sleeps in 0.1-second
increments, i.e. `remaining` rounded up to the next multiple of 0.1. -/
def progressSleep (remaining : ℚ) : ℚ :=
  (⌈remaining * 10⌉ : ℚ) / 10

/-- Total time slept by one `wait` call entered at wall-clock time `t`:
`0` when `elapsed = t - last_call_time` already reaches
`wait_seconds = wait_minutes * 60`, otherwise the remaining duration
(rounded up to 0.1-steps when the progress bar is shown). -/
def RateLimiter.waitSleep (rl : RateLimiter) (t : ℚ) : ℚ :=
  let elapsed := t - rl.last_call_time
  let wait_seconds := rl.config.wait_minutes * 60
  if elapsed < wait_seconds then
    let remaining := wait_seconds - elapsed
    if rl.config.show_progress then progressSleep remaining else remaining
  else 0

/-- Model of `RateLimiter.wait` entered at time `t`: sleeps `waitSleep`, then sets
`last_call_time` to the current time; returns the new state and the
wall-clock time at which the call returns. -/
def RateLimiter.wait (rl : RateLimiter) (t : ℚ) : RateLimiter × ℚ :=
  let tReturn := t + rl.waitSleep t
  ({ rl with last_call_time := tReturn }, tReturn)

/-- Model of `RateLimiter.reset_timer`: sets `last_call_time` to 0. -/
def RateLimiter.reset_timer (rl : RateLimiter) : RateLimiter :=
  { rl with last_call_time := 0 }

/-- The `_show_config_dialog` GUI dialog: the minutes entry is prefilled
with `default_minutes` and the progress checkbox with `true`; the user may
override either (`none` = accept the prefilled value). -/
def showConfigDialog (default_minutes : ℚ) (userMinutes : Option ℚ)
    (userProgress : Option Bool) : RateLimitConfig :=
  { wait_minutes := userMinutes.getD default_minutes
    show_progress := userProgress.getD true }

/-- Model of `RateLimiter.update_config`: an explicit `config` wins; otherwise, when
`show_dialog`, the dialog is shown with default
`default_minutes or self.config.wait_minutes` (Python `or`: a `None` or
zero `default_minutes` falls back to the current value). -/
def RateLimiter.update_config (rl : RateLimiter) (config : Option RateLimitConfig)
    (show_dialog : Bool) (default_minutes : Option ℚ)
    (userMinutes : Option ℚ) (userProgress : Option Bool) : RateLimiter :=
  match config with
  | some c => { rl with config := c }
  | none =>
    if show_dialog then
      let dflt := match default_minutes with
        | some d => if d = 0 then rl.config.wait_minutes else d
        | none => rl.config.wait_minutes
      { rl with config := showConfigDialog dflt userMinutes userProgress }
    else rl

/-! Basic lemmas about `wait`. -/

lemma progressSleep_ge (r : ℚ) : r ≤ progressSleep r := by
  unfold progressSleep
  have h : r * 10 ≤ (⌈r * 10⌉ : ℚ) := Int.le_ceil _
  linarith

/-- The time at which `wait` returns is at least `last_call_time`
plus `wait_minutes * 60`. -/
lemma wait_return_ge (rl : RateLimiter) (t : ℚ) :
    rl.last_call_time + rl.config.wait_minutes * 60 ≤ (rl.wait t).2 := by
  unfold RateLimiter.wait RateLimiter.waitSleep
  dsimp only
  split
  · split
    · have := progressSleep_ge
        (rl.config.wait_minutes * 60 - (t - rl.last_call_time))
      linarith
    · linarith
  · rename_i h
    push_neg at h
    linarith

/-- The `wait` call never returns before it was entered. -/
lemma wait_return_ge_entry (rl : RateLimiter) (t : ℚ) :
    t ≤ (rl.wait t).2 := by
  unfold RateLimiter.wait RateLimiter.waitSleep
  dsimp only
  split
  · split
    · rename_i hlt _
      have := progressSleep_ge
        (rl.config.wait_minutes * 60 - (t - rl.last_call_time))
      linarith
    · rename_i hlt _
      linarith
  · linarith

/-- On return, `wait` stamps `last_call_time` with the return time. -/
lemma wait_stamps (rl : RateLimiter) (t : ℚ) :
    ((rl.wait t).1).last_call_time = (rl.wait t).2 := rfl

/-- The `wait` call leaves the configuration unchanged. -/
lemma wait_config (rl : RateLimiter) (t : ℚ) :
    ((rl.wait t).1).config = rl.config := rfl

/-- When the elapsed time already reaches the interval, `wait` sleeps 0
and returns at its entry time. -/
lemma wait_immediate (rl : RateLimiter) (t : ℚ)
    (h : rl.config.wait_minutes * 60 ≤ t - rl.last_call_time) :
    rl.waitSleep t = 0 ∧ (rl.wait t).2 = t := by
  have hs : rl.waitSleep t = 0 := by
    unfold RateLimiter.waitSleep
    dsimp only
    rw [if_neg (by linarith)]
  refine ⟨hs, ?_⟩
  unfold RateLimiter.wait
  dsimp only
  rw [hs]
  ring

/-- C1. `wait` blocks until at least `wait_minutes*60` seconds have
elapsed since `last_call_time`, returns at its entry time when the elapsed
time already reaches the interval, unconditionally stamps
`last_call_time := now` on return, and consequently a second consecutive
`wait` (no intervening `reset_timer`) returns no earlier than
`wait_minutes*60` seconds after the first returned. -/
theorem rateLimiter_wait_spacing (rl : RateLimiter) (m t₁ t₂ : ℚ)
    (hm : rl.config.wait_minutes = m) :
    rl.last_call_time + m * 60 ≤ (rl.wait t₁).2
    ∧ (m * 60 ≤ t₁ - rl.last_call_time → (rl.wait t₁).2 = t₁)
    ∧ ((rl.wait t₁).1).last_call_time = (rl.wait t₁).2
    ∧ (rl.wait t₁).2 + m * 60 ≤ (((rl.wait t₁).1).wait t₂).2 := by
  subst hm
  refine ⟨wait_return_ge rl t₁, ?_, wait_stamps rl t₁, ?_⟩
  · intro h
    exact (wait_immediate rl t₁ h).2
  · have h₁ := wait_return_ge ((rl.wait t₁).1) t₂
    rw [wait_stamps rl t₁] at h₁
    rw [wait_config rl t₁] at h₁
    exact h₁

/-- Witness for C1 at a concrete input: `wait_minutes = 2`,
`last_call_time = 100`, first call entered at `t₁ = 220 = 100 + 120`. -/
theorem rateLimiter_wait_spacing_witness :
    let rl : RateLimiter := ⟨⟨2, false⟩, 100⟩
    rl.last_call_time + 2 * 60 ≤ (rl.wait 220).2
    ∧ (2 * 60 ≤ 220 - rl.last_call_time → (rl.wait 220).2 = 220)
    ∧ ((rl.wait 220).1).last_call_time = (rl.wait 220).2
    ∧ (rl.wait 220).2 + 2 * 60 ≤ (((rl.wait 220).1).wait 230).2 :=
  rateLimiter_wait_spacing ⟨⟨2, false⟩, 100⟩ 2 220 230 rfl

/-- C8. `reset_timer` sets `last_call_time` to 0, and a `wait` entered
right after it at wall-clock time `t` (with `t` at least the interval,
which holds for any realistic epoch time) performs no sleep and returns
at `t`, i.e. with zero delay. -/
theorem rateLimiter_reset_then_wait (rl : RateLimiter) (t : ℚ)
    (ht : rl.config.wait_minutes * 60 ≤ t) :
    rl.reset_timer.last_call_time = 0
    ∧ rl.reset_timer.waitSleep t = 0
    ∧ (rl.reset_timer.wait t).2 = t := by
  have h : rl.reset_timer.config.wait_minutes * 60
      ≤ t - rl.reset_timer.last_call_time := by
    simp only [RateLimiter.reset_timer]
    linarith
  exact ⟨rfl, (wait_immediate rl.reset_timer t h).1,
    (wait_immediate rl.reset_timer t h).2⟩

/-- Witness for C8: one minute interval, clock at 3600. -/
theorem rateLimiter_reset_then_wait_witness :
    let rl : RateLimiter := ⟨⟨1, true⟩, 500⟩
    rl.reset_timer.last_call_time = 0
    ∧ rl.reset_timer.waitSleep 3600 = 0
    ∧ (rl.reset_timer.wait 3600).2 = 3600 :=
  rateLimiter_reset_then_wait ⟨⟨1, true⟩, 500⟩ 3600 (by norm_num)

/-! ## Provider clients (src/gemini_api.py, src/deepseek_api.py,
src/kimi_api.py)

Each `call_api` is a `for attempt in range(max_retries)` loop around one
remote attempt.  The remote transport is modelled as a function from the
attempt index to that attempt's outcome.  A `CallTrace` records the
returned value, how many loop iterations (remote attempts) were made,
the `time.sleep(10 + 5 ** attempt)` backoff sleeps performed, and through
which code path the function returned (success return / the catch-all
`except` that returns `None` at once / the post-loop `return None` after
exhausting all attempts) — the three paths print distinct messages. -/

/-- Exceptions a remote attempt can raise. -/
inductive RemoteExc where
  | serviceUnavailable
  | requestException
  | otherError (msg : String)
deriving DecidableEq, Repr

/-- Outcome of one remote attempt. -/
inductive RemoteOutcome where
  | success (s : String)
  | failure (e : RemoteExc)
deriving DecidableEq, Repr

/-- Which path `call_api` returned through. -/
inductive ExitKind where
  | returned
  | terminalCatch
  | exhausted
deriving DecidableEq, Repr

/-- Observable trace of one `call_api` invocation. -/
structure CallTrace where
  result : Option String
  attempts : Nat
  backoffSleeps : List Nat
  exit : ExitKind
deriving DecidableEq, Repr

/-- The `GeminiAPI.call_api` retry loop, structurally on the number of loop
iterations left (`fuel = max_retries - attempt`), carrying the absolute
attempt index: `except ServiceUnavailable` sleeps `10 + 5 ** attempt` and
retries; any other exception returns `None` immediately; when the `for`
loop ends without returning, `None`. -/
def GeminiAPI.call_go (transport : Nat → RemoteOutcome) :
    Nat → Nat → CallTrace
  | 0, _ =>
      { result := none, attempts := 0, backoffSleeps := [], exit := .exhausted }
  | fuel + 1, attempt =>
    match transport attempt with
    | .success s =>
        { result := some s, attempts := 1, backoffSleeps := [], exit := .returned }
    | .failure .serviceUnavailable =>
        let t := GeminiAPI.call_go transport fuel (attempt + 1)
        { result := t.result, attempts := t.attempts + 1
          backoffSleeps := (10 + 5 ^ attempt) :: t.backoffSleeps, exit := t.exit }
    | .failure _ =>
        { result := none, attempts := 1, backoffSleeps := [], exit := .terminalCatch }

/-- Model of `GeminiAPI.call_api` (default `max_retries = 3` at every call site). -/
def GeminiAPI.call_api (transport : Nat → RemoteOutcome) (max_retries : Nat) :
    CallTrace :=
  GeminiAPI.call_go transport max_retries 0

/-- The `DeepSeekAPI.call_api` retry loop: the single `except Exception`
clause treats every exception as transient — sleep `10 + 5 ** attempt`
and retry; when the loop ends without returning, `None`. -/
def DeepSeekAPI.call_go (transport : Nat → RemoteOutcome) :
    Nat → Nat → CallTrace
  | 0, _ =>
      { result := none, attempts := 0, backoffSleeps := [], exit := .exhausted }
  | fuel + 1, attempt =>
    match transport attempt with
    | .success s =>
        { result := some s, attempts := 1, backoffSleeps := [], exit := .returned }
    | .failure _ =>
        let t := DeepSeekAPI.call_go transport fuel (attempt + 1)
        { result := t.result, attempts := t.attempts + 1
          backoffSleeps := (10 + 5 ^ attempt) :: t.backoffSleeps, exit := t.exit }

/-- Model of `DeepSeekAPI.call_api` (default `max_retries = 3`). -/
def DeepSeekAPI.call_api (transport : Nat → RemoteOutcome) (max_retries : Nat) :
    CallTrace :=
  DeepSeekAPI.call_go transport max_retries 0

/-- One Kimi attempt issues two HTTP POSTs (system message, then user
message) and parses the second response; either POST (or
`raise_for_status`) can raise, and the JSON parsing can raise. -/
inductive KimiAttemptOutcome where
  | firstRaises (e : RemoteExc)
  | secondRaises (e : RemoteExc)
  | parseRaises (msg : String)
  | ok (content : String)
deriving DecidableEq, Repr

/-- The `KimiAPI.call_api` retry loop:
`except requests.exceptions.RequestException` (from either POST) sleeps
`10 + 5 ** attempt` and retries; any other exception returns `None`
immediately; when the loop ends without returning, `None`. -/
def KimiAPI.call_go (transport : Nat → KimiAttemptOutcome) :
    Nat → Nat → CallTrace
  | 0, _ =>
      { result := none, attempts := 0, backoffSleeps := [], exit := .exhausted }
  | fuel + 1, attempt =>
    match transport attempt with
    | .ok s =>
        { result := some s, attempts := 1, backoffSleeps := [], exit := .returned }
    | .firstRaises .requestException =>
        let t := KimiAPI.call_go transport fuel (attempt + 1)
        { result := t.result, attempts := t.attempts + 1
          backoffSleeps := (10 + 5 ^ attempt) :: t.backoffSleeps, exit := t.exit }
    | .secondRaises .requestException =>
        let t := KimiAPI.call_go transport fuel (attempt + 1)
        { result := t.result, attempts := t.attempts + 1
          backoffSleeps := (10 + 5 ^ attempt) :: t.backoffSleeps, exit := t.exit }
    | _ =>
        { result := none, attempts := 1, backoffSleeps := [], exit := .terminalCatch }

/-- Model of `KimiAPI.call_api` (default `max_retries = 3`). -/
def KimiAPI.call_api (transport : Nat → KimiAttemptOutcome) (max_retries : Nat) :
    CallTrace :=
  KimiAPI.call_go transport max_retries 0

/-- A transient outcome for the Gemini client: `ServiceUnavailable`. -/
def geminiTransient (o : RemoteOutcome) : Prop :=
  o = .failure .serviceUnavailable

/-- A transient outcome for the DeepSeek client: any exception. -/
def deepseekTransient (o : RemoteOutcome) : Prop :=
  ∃ e, o = .failure e

/-- A transient outcome for the Kimi client: a `RequestException`
raised by either of the two POSTs. -/
def kimiTransient (o : KimiAttemptOutcome) : Prop :=
  o = .firstRaises .requestException ∨ o = .secondRaises .requestException

/-- The backoff slept after the failed attempt with index `a`:
`time.sleep(10 + 5 ** attempt)`. -/
def backoff (a : Nat) : Nat := 10 + 5 ^ a

/-! Characterisation of the three retry loops on transient-failure
prefixes.  All are stated from an arbitrary starting attempt index so
that they go through by induction on the remaining fuel. -/

lemma gemini_go_success (tf : Nat → RemoteOutcome) (s : String) :
    ∀ n fuel attempt, n < fuel →
    (∀ a, attempt ≤ a → a < attempt + n → geminiTransient (tf a)) →
    tf (attempt + n) = .success s →
    GeminiAPI.call_go tf fuel attempt =
      { result := some s, attempts := n + 1
        backoffSleeps := (List.range' attempt n).map backoff
        exit := .returned } := by
  intro n
  induction n with
  | zero =>
    intro fuel attempt hlt _ hsucc
    match fuel, hlt with
    | fuel + 1, _ =>
      rw [Nat.add_zero] at hsucc
      simp [GeminiAPI.call_go, hsucc]
  | succ n ih =>
    intro fuel attempt hlt htr hsucc
    match fuel, hlt with
    | fuel + 1, hlt =>
      have h0 : tf attempt = .failure .serviceUnavailable :=
        htr attempt le_rfl (by omega)
      have hs : tf (attempt + 1 + n) = .success s := by
        rw [show attempt + 1 + n = attempt + (n + 1) by omega]
        exact hsucc
      simp only [GeminiAPI.call_go, h0]
      rw [ih fuel (attempt + 1) (by omega)
        (fun a ha hb => htr a (by omega) (by omega)) hs]
      simp [List.range'_succ, backoff]

lemma gemini_go_exhaust (tf : Nat → RemoteOutcome) :
    ∀ fuel attempt,
    (∀ a, attempt ≤ a → a < attempt + fuel → geminiTransient (tf a)) →
    GeminiAPI.call_go tf fuel attempt =
      { result := none, attempts := fuel
        backoffSleeps := (List.range' attempt fuel).map backoff
        exit := .exhausted } := by
  intro fuel
  induction fuel with
  | zero => intro attempt _; simp [GeminiAPI.call_go]
  | succ fuel ih =>
    intro attempt htr
    have h0 : tf attempt = .failure .serviceUnavailable :=
      htr attempt le_rfl (by omega)
    simp only [GeminiAPI.call_go, h0]
    rw [ih (attempt + 1) (fun a ha hb => htr a (by omega) (by omega))]
    simp [List.range'_succ, backoff]

lemma deepseek_go_success (tf : Nat → RemoteOutcome) (s : String) :
    ∀ n fuel attempt, n < fuel →
    (∀ a, attempt ≤ a → a < attempt + n → deepseekTransient (tf a)) →
    tf (attempt + n) = .success s →
    DeepSeekAPI.call_go tf fuel attempt =
      { result := some s, attempts := n + 1
        backoffSleeps := (List.range' attempt n).map backoff
        exit := .returned } := by
  intro n
  induction n with
  | zero =>
    intro fuel attempt hlt _ hsucc
    match fuel, hlt with
    | fuel + 1, _ =>
      rw [Nat.add_zero] at hsucc
      simp [DeepSeekAPI.call_go, hsucc]
  | succ n ih =>
    intro fuel attempt hlt htr hsucc
    match fuel, hlt with
    | fuel + 1, hlt =>
      obtain ⟨e, h0⟩ := htr attempt le_rfl (by omega)
      have hs : tf (attempt + 1 + n) = .success s := by
        rw [show attempt + 1 + n = attempt + (n + 1) by omega]
        exact hsucc
      simp only [DeepSeekAPI.call_go, h0]
      rw [ih fuel (attempt + 1) (by omega)
        (fun a ha hb => htr a (by omega) (by omega)) hs]
      simp [List.range'_succ, backoff]

lemma deepseek_go_exhaust (tf : Nat → RemoteOutcome) :
    ∀ fuel attempt,
    (∀ a, attempt ≤ a → a < attempt + fuel → deepseekTransient (tf a)) →
    DeepSeekAPI.call_go tf fuel attempt =
      { result := none, attempts := fuel
        backoffSleeps := (List.range' attempt fuel).map backoff
        exit := .exhausted } := by
  intro fuel
  induction fuel with
  | zero => intro attempt _; simp [DeepSeekAPI.call_go]
  | succ fuel ih =>
    intro attempt htr
    obtain ⟨e, h0⟩ := htr attempt le_rfl (by omega)
    simp only [DeepSeekAPI.call_go, h0]
    rw [ih (attempt + 1) (fun a ha hb => htr a (by omega) (by omega))]
    simp [List.range'_succ, backoff]

lemma kimi_go_transient_step (tf : Nat → KimiAttemptOutcome)
    (fuel attempt : Nat) (h : kimiTransient (tf attempt)) :
    KimiAPI.call_go tf (fuel + 1) attempt =
      (let t := KimiAPI.call_go tf fuel (attempt + 1)
       { result := t.result, attempts := t.attempts + 1
         backoffSleeps := backoff attempt :: t.backoffSleeps, exit := t.exit }) := by
  rcases h with h0 | h0 <;> simp [KimiAPI.call_go, h0, backoff]

lemma kimi_go_success (tf : Nat → KimiAttemptOutcome) (s : String) :
    ∀ n fuel attempt, n < fuel →
    (∀ a, attempt ≤ a → a < attempt + n → kimiTransient (tf a)) →
    tf (attempt + n) = .ok s →
    KimiAPI.call_go tf fuel attempt =
      { result := some s, attempts := n + 1
        backoffSleeps := (List.range' attempt n).map backoff
        exit := .returned } := by
  intro n
  induction n with
  | zero =>
    intro fuel attempt hlt _ hsucc
    match fuel, hlt with
    | fuel + 1, _ =>
      rw [Nat.add_zero] at hsucc
      simp [KimiAPI.call_go, hsucc]
  | succ n ih =>
    intro fuel attempt hlt htr hsucc
    match fuel, hlt with
    | fuel + 1, hlt =>
      have hs : tf (attempt + 1 + n) = .ok s := by
        rw [show attempt + 1 + n = attempt + (n + 1) by omega]
        exact hsucc
      rw [kimi_go_transient_step tf fuel attempt (htr attempt le_rfl (by omega))]
      rw [ih fuel (attempt + 1) (by omega)
        (fun a ha hb => htr a (by omega) (by omega)) hs]
      simp [List.range'_succ, backoff]

lemma kimi_go_exhaust (tf : Nat → KimiAttemptOutcome) :
    ∀ fuel attempt,
    (∀ a, attempt ≤ a → a < attempt + fuel → kimiTransient (tf a)) →
    KimiAPI.call_go tf fuel attempt =
      { result := none, attempts := fuel
        backoffSleeps := (List.range' attempt fuel).map backoff
        exit := .exhausted } := by
  intro fuel
  induction fuel with
  | zero => intro attempt _; simp [KimiAPI.call_go]
  | succ fuel ih =>
    intro attempt htr
    rw [kimi_go_transient_step tf fuel attempt (htr attempt le_rfl (by omega))]
    rw [ih (attempt + 1) (fun a ha hb => htr a (by omega) (by omega))]
    simp [List.range'_succ, backoff]

/-- A terminal outcome for the Gemini client: any exception other than
`ServiceUnavailable` falls into the catch-all `except Exception`. -/
def geminiTerminal (o : RemoteOutcome) : Prop :=
  ∃ e, o = .failure e ∧ e ≠ .serviceUnavailable

/-- A terminal outcome for the Kimi client: any exception that is not a
`RequestException` falls into the catch-all `except Exception`. -/
def kimiTerminal (o : KimiAttemptOutcome) : Prop :=
  (∃ e, o = .firstRaises e ∧ e ≠ .requestException)
  ∨ (∃ e, o = .secondRaises e ∧ e ≠ .requestException)
  ∨ (∃ m, o = .parseRaises m)

lemma gemini_go_terminal (tf : Nat → RemoteOutcome) (fuel attempt : Nat)
    (hf : 0 < fuel) (h : geminiTerminal (tf attempt)) :
    GeminiAPI.call_go tf fuel attempt =
      { result := none, attempts := 1, backoffSleeps := [], exit := .terminalCatch } := by
  obtain ⟨e, he, hne⟩ := h
  match fuel, hf with
  | fuel + 1, _ =>
    cases e with
    | serviceUnavailable => exact absurd rfl hne
    | requestException => simp only [GeminiAPI.call_go, he]
    | otherError m => simp only [GeminiAPI.call_go, he]

lemma kimi_go_terminal (tf : Nat → KimiAttemptOutcome) (fuel attempt : Nat)
    (hf : 0 < fuel) (h : kimiTerminal (tf attempt)) :
    KimiAPI.call_go tf fuel attempt =
      { result := none, attempts := 1, backoffSleeps := [], exit := .terminalCatch } := by
  match fuel, hf with
  | fuel + 1, _ =>
    rcases h with ⟨e, he, hne⟩ | ⟨e, he, hne⟩ | ⟨m, hm⟩
    · simp only [KimiAPI.call_go, he]
      cases e with
      | serviceUnavailable => rfl
      | requestException => exact absurd rfl hne
      | otherError m => rfl
    · simp only [KimiAPI.call_go, he]
      cases e with
      | serviceUnavailable => rfl
      | requestException => exact absurd rfl hne
      | otherError m => rfl
    · simp only [KimiAPI.call_go, hm]

/-- C2, counterexample: the claim quantifies over every provider client
variant, but the DeepSeek client's `call_api` has no terminal branch — a
content-policy-style error on the first attempt is retried like any other
exception, so 3 remote attempts are made, not 1. -/
theorem terminal_abort_counterexample :
    DeepSeekAPI.call_api (fun _ => .failure (.otherError "content policy")) 3 =
      { result := none, attempts := 3, backoffSleeps := [11, 15, 35]
        exit := .exhausted }
    ∧ (3 : Nat) ≠ 1 := by
  constructor
  · rfl
  · decide

/-- C2, amended: the Gemini and Kimi clients abort after exactly 1 remote
attempt on a terminal (non-transient) failure, returning the null value
through a code path reported distinctly from exhausted retries (although
the returned value `none` itself coincides with the exhausted-retries
value); the DeepSeek client treats every exception as transient and makes
all `max_retries` attempts even on a terminal failure. -/
theorem terminal_abort_behaviour (max_retries : Nat)
    (tg : Nat → RemoteOutcome) (tk : Nat → KimiAttemptOutcome)
    (td : Nat → RemoteOutcome)
    (hmr : 0 < max_retries)
    (hg : geminiTerminal (tg 0)) (hk : kimiTerminal (tk 0))
    (hd : ∀ a, deepseekTransient (td a)) :
    GeminiAPI.call_api tg max_retries =
      { result := none, attempts := 1, backoffSleeps := [], exit := .terminalCatch }
    ∧ KimiAPI.call_api tk max_retries =
      { result := none, attempts := 1, backoffSleeps := [], exit := .terminalCatch }
    ∧ DeepSeekAPI.call_api td max_retries =
      { result := none, attempts := max_retries
        backoffSleeps := (List.range max_retries).map backoff, exit := .exhausted }
    ∧ ExitKind.terminalCatch ≠ ExitKind.exhausted := by
  refine ⟨gemini_go_terminal tg max_retries 0 hmr hg,
    kimi_go_terminal tk max_retries 0 hmr hk, ?_, by decide⟩
  rw [DeepSeekAPI.call_api, List.range_eq_range']
  exact deepseek_go_exhaust td max_retries 0 (fun a _ _ => hd a)

/-- Witness for C2's amended theorem at `max_retries = 3` with concrete
terminal-failure transports. -/
theorem terminal_abort_behaviour_witness :
    GeminiAPI.call_api (fun _ => .failure (.otherError "blocked prompt")) 3 =
      { result := none, attempts := 1, backoffSleeps := [], exit := .terminalCatch }
    ∧ KimiAPI.call_api (fun _ => .parseRaises "key error") 3 =
      { result := none, attempts := 1, backoffSleeps := [], exit := .terminalCatch }
    ∧ DeepSeekAPI.call_api (fun _ => .failure (.otherError "content policy")) 3 =
      { result := none, attempts := 3
        backoffSleeps := (List.range 3).map backoff, exit := .exhausted }
    ∧ ExitKind.terminalCatch ≠ ExitKind.exhausted :=
  terminal_abort_behaviour 3
    (fun _ => .failure (.otherError "blocked prompt"))
    (fun _ => .parseRaises "key error")
    (fun _ => .failure (.otherError "content policy"))
    (by decide)
    ⟨.otherError "blocked prompt", rfl, by decide⟩
    (Or.inr (Or.inr ⟨"key error", rfl⟩))
    (fun a => ⟨.otherError "content policy", rfl⟩)

/-- C3. For each provider client: a transport failing transiently on the
first `k < max_retries` attempts and succeeding on attempt `k` yields the
success value after exactly `k + 1` remote attempts; a transport failing
transiently on every attempt yields the null failure signal after exactly
`max_retries` attempts, with the attempt-dependent backoff
`10 + 5 ** attempt` slept after each failed attempt. -/
theorem providerClients_transient_retry (max_retries k : Nat) (s : String)
    (tg td : Nat → RemoteOutcome) (tk : Nat → KimiAttemptOutcome)
    (tg' td' : Nat → RemoteOutcome) (tk' : Nat → KimiAttemptOutcome)
    (hk : k < max_retries)
    (hg : ∀ a, a < k → geminiTransient (tg a)) (hgs : tg k = .success s)
    (hd : ∀ a, a < k → deepseekTransient (td a)) (hds : td k = .success s)
    (hm : ∀ a, a < k → kimiTransient (tk a)) (hms : tk k = .ok s)
    (hg' : ∀ a, geminiTransient (tg' a))
    (hd' : ∀ a, deepseekTransient (td' a))
    (hm' : ∀ a, kimiTransient (tk' a)) :
    GeminiAPI.call_api tg max_retries =
      { result := some s, attempts := k + 1
        backoffSleeps := (List.range k).map backoff, exit := .returned }
    ∧ DeepSeekAPI.call_api td max_retries =
      { result := some s, attempts := k + 1
        backoffSleeps := (List.range k).map backoff, exit := .returned }
    ∧ KimiAPI.call_api tk max_retries =
      { result := some s, attempts := k + 1
        backoffSleeps := (List.range k).map backoff, exit := .returned }
    ∧ GeminiAPI.call_api tg' max_retries =
      { result := none, attempts := max_retries
        backoffSleeps := (List.range max_retries).map backoff, exit := .exhausted }
    ∧ DeepSeekAPI.call_api td' max_retries =
      { result := none, attempts := max_retries
        backoffSleeps := (List.range max_retries).map backoff, exit := .exhausted }
    ∧ KimiAPI.call_api tk' max_retries =
      { result := none, attempts := max_retries
        backoffSleeps := (List.range max_retries).map backoff, exit := .exhausted } := by
  refine ⟨?_, ?_, ?_, ?_, ?_, ?_⟩
  · rw [GeminiAPI.call_api, List.range_eq_range']
    exact gemini_go_success tg s k max_retries 0 hk
      (fun a _ hb => hg a (by omega)) (by simpa using hgs)
  · rw [DeepSeekAPI.call_api, List.range_eq_range']
    exact deepseek_go_success td s k max_retries 0 hk
      (fun a _ hb => hd a (by omega)) (by simpa using hds)
  · rw [KimiAPI.call_api, List.range_eq_range']
    exact kimi_go_success tk s k max_retries 0 hk
      (fun a _ hb => hm a (by omega)) (by simpa using hms)
  · rw [GeminiAPI.call_api, List.range_eq_range']
    exact gemini_go_exhaust tg' max_retries 0 (fun a _ _ => hg' a)
  · rw [DeepSeekAPI.call_api, List.range_eq_range']
    exact deepseek_go_exhaust td' max_retries 0 (fun a _ _ => hd' a)
  · rw [KimiAPI.call_api, List.range_eq_range']
    exact kimi_go_exhaust tk' max_retries 0 (fun a _ _ => hm' a)

/-- Transport failing transiently once then succeeding, Gemini flavour. -/
def tgOnce : Nat → RemoteOutcome :=
  fun a => if a = 0 then .failure .serviceUnavailable else .success "ok"

/-- Transport failing transiently once then succeeding, DeepSeek flavour
(any exception is transient for DeepSeek). -/
def tdOnce : Nat → RemoteOutcome :=
  fun a => if a = 0 then .failure (.otherError "timeout") else .success "ok"

/-- Transport failing transiently once then succeeding, Kimi flavour. -/
def tkOnce : Nat → KimiAttemptOutcome :=
  fun a => if a = 0 then .firstRaises .requestException else .ok "ok"

/-- Witness for C3 at `max_retries = 3`, `k = 1`. -/
theorem providerClients_transient_retry_witness :
    GeminiAPI.call_api tgOnce 3 =
      { result := some "ok", attempts := 2
        backoffSleeps := (List.range 1).map backoff, exit := .returned }
    ∧ DeepSeekAPI.call_api tdOnce 3 =
      { result := some "ok", attempts := 2
        backoffSleeps := (List.range 1).map backoff, exit := .returned }
    ∧ KimiAPI.call_api tkOnce 3 =
      { result := some "ok", attempts := 2
        backoffSleeps := (List.range 1).map backoff, exit := .returned }
    ∧ GeminiAPI.call_api (fun _ => .failure .serviceUnavailable) 3 =
      { result := none, attempts := 3
        backoffSleeps := (List.range 3).map backoff, exit := .exhausted }
    ∧ DeepSeekAPI.call_api (fun _ => .failure .requestException) 3 =
      { result := none, attempts := 3
        backoffSleeps := (List.range 3).map backoff, exit := .exhausted }
    ∧ KimiAPI.call_api (fun _ => .secondRaises .requestException) 3 =
      { result := none, attempts := 3
        backoffSleeps := (List.range 3).map backoff, exit := .exhausted } :=
  providerClients_transient_retry 3 1 "ok" tgOnce tdOnce tkOnce
    (fun _ => .failure .serviceUnavailable)
    (fun _ => .failure .requestException)
    (fun _ => .secondRaises .requestException)
    (by decide)
    (fun a ha => by
      have h0 : a = 0 := by omega
      subst h0; rfl)
    rfl
    (fun a ha => by
      have h0 : a = 0 := by omega
      subst h0; exact ⟨.otherError "timeout", rfl⟩)
    rfl
    (fun a ha => by
      have h0 : a = 0 := by omega
      subst h0; exact Or.inl rfl)
    rfl
    (fun a => rfl)
    (fun a => ⟨.requestException, rfl⟩)
    (fun a => Or.inr rfl)

/-! ## Batch orchestrator (src/api_factory.py, `ArticleAnalyzer`)

The per-file outcome of `process_file` is supplied by an oracle
`outcome : String → Bool`; the yes/no answer to the k-th
consecutive-failure prompt by `choice : Nat → Bool`; and whether a
`KeyboardInterrupt` is raised during the wait before the file at index
`i` by `intr : Nat → Bool`.  A pass is observed through its event
trace. -/

/-- Observable events of a batch pass. -/
inductive Event where
  | wait (file : String)
  | process (file : String) (success : Bool)
  | prompt (answeredYes : Bool)
  | interrupted
deriving DecidableEq, Repr

/-- The `for i, file_path in enumerate(file_paths)` loop of
`ArticleAnalyzer.process_files`, from index `i` with `k` prompts already
answered and `consec` current consecutive failures.  Returns the files
appended to `failed_tasks` from here on and the events emitted from here
on.  When `i > 0` the wait is performed first; a `KeyboardInterrupt`
during it is caught and breaks the loop.  On failure the file is appended
to the failed list and the consecutive-failure counter incremented; at 3
the user is asked whether to continue ("no" breaks the loop, "yes" resets
the counter).  On success the counter resets (and `last_call_time` is
re-stamped, not modelled here). -/
def pf_go (outcome : String → Bool) (choice : Nat → Bool) (intr : Nat → Bool) :
    List String → Nat → Nat → Nat → List String × List Event
  | [], _, _, _ => ([], [])
  | f :: rest, i, k, consec =>
    if 0 < i ∧ intr i then ([], [.interrupted])
    else
      let pre : List Event := if 0 < i then [.wait f] else []
      if outcome f then
        let p := pf_go outcome choice intr rest (i + 1) k 0
        (p.1, pre ++ [.process f true] ++ p.2)
      else
        if consec + 1 ≥ 3 then
          if choice k then
            let p := pf_go outcome choice intr rest (i + 1) (k + 1) 0
            (f :: p.1, pre ++ [.process f false, .prompt true] ++ p.2)
          else
            ([f], pre ++ [.process f false, .prompt false])
        else
          let p := pf_go outcome choice intr rest (i + 1) k (consec + 1)
          (f :: p.1, pre ++ [.process f false] ++ p.2)

/-- The main pass of `ArticleAnalyzer.process_files`: the loop started at
index 0 with counter 0 (the rate limiter's timer has been reset just
before). -/
def process_files_pass (outcome : String → Bool) (choice : Nat → Bool)
    (intr : Nat → Bool) (file_paths : List String) : List String × List Event :=
  pf_go outcome choice intr file_paths 0 0 0

/-- The loop of `ArticleAnalyzer.retry_failed_tasks`, from index `i`.
The wait before every file except the first is NOT wrapped in a
`try/except KeyboardInterrupt`: an interrupt there propagates out of the
pass, carrying the events emitted so far (`Except.error`). -/
def rft_go (outcome : String → Bool) (intr : Nat → Bool) :
    List String → Nat → Except (List Event) (List Event)
  | [], _ => .ok []
  | f :: rest, i =>
    if 0 < i ∧ intr i then .error []
    else
      let pre : List Event := if 0 < i then [.wait f] else []
      match rft_go outcome intr rest (i + 1) with
      | .ok evs => .ok (pre ++ [.process f (outcome f)] ++ evs)
      | .error evs => .error (pre ++ [.process f (outcome f)] ++ evs)

/-- Model of `ArticleAnalyzer.retry_failed_tasks` over the failed list. -/
def retry_failed_tasks (outcome : String → Bool) (intr : Nat → Bool)
    (failed_tasks : List String) : Except (List Event) (List Event) :=
  rft_go outcome intr failed_tasks 0

/-- The post-pass decision of `process_files` when `failed_tasks` is
nonempty: `askyesnocancel` returns `none` (cancel: no retry),
`some true` (retry immediately) or `some false` (update the limiter
config with a doubled default wait, then retry).  Returns the limiter
the retry pass would run with and whether it runs. -/
def retryDecision (rl : RateLimiter) (choice : Option Bool)
    (userMinutes : Option ℚ) (userProgress : Option Bool) : RateLimiter × Bool :=
  match choice with
  | none => (rl, false)
  | some true => (rl, true)
  | some false =>
      (rl.update_config none true (some (rl.config.wait_minutes * 2))
        userMinutes userProgress, true)

/-! Trace-shape checker for the wait discipline (C6): no wait before the
first processed job, and every later processed job immediately preceded
by the wait for that same file. -/

/-- Checks the trace after the first processed job: each further job
contributes `wait f` directly followed by `process f`, prompts may
follow a processing, and an interruption ends the trace. -/
def chkLater : List Event → Bool
  | [] => true
  | .interrupted :: rest => rest.isEmpty
  | .wait f :: .process g _ :: rest => f == g && chkLater rest
  | .prompt _ :: rest => chkLater rest
  | _ => false

/-- Checks a whole pass trace: the first job (if any) is processed with
no preceding wait, the rest follow the `chkLater` discipline. -/
def chkPass : List Event → Bool
  | [] => true
  | .process _ _ :: rest => chkLater rest
  | _ => false

/-- The events carried by a retry-pass result, whether the pass returned
normally or an exception propagated out of it. -/
def exEvents : Except (List Event) (List Event) → List Event
  | .ok e => e
  | .error e => e

/-- Whether a retry-pass result is a normal return (a raised interrupt
was caught) rather than a propagating exception. -/
def passCaught : Except (List Event) (List Event) → Bool
  | .ok _ => true
  | .error _ => false

/-- Files recorded as processed in a trace, in order. -/
def processedFiles : List Event → List String
  | [] => []
  | .process f _ :: rest => f :: processedFiles rest
  | _ :: rest => processedFiles rest

/-- Number of consecutive-failure decision prompts in a trace. -/
def promptCount : List Event → Nat
  | [] => 0
  | .prompt _ :: rest => promptCount rest + 1
  | _ :: rest => promptCount rest

/-- Modelled from the spec: the trace the spec prescribes for the tail of
a retry pass — for each remaining failed Job, wait then process it. -/
def specRetryLater (outcome : String → Bool) : List String → List Event
  | [] => []
  | g :: rest => .wait g :: .process g (outcome g) :: specRetryLater outcome rest

/-- Modelled from the spec: the full trace the spec prescribes for a
retry pass — re-run the per-Job procedure (wait before every Job except
the first, then process) over exactly the failed subset. -/
def specRetryTrace (outcome : String → Bool) : List String → List Event
  | [] => []
  | f :: rest => .process f (outcome f) :: specRetryLater outcome rest

/-! ## Per-job processing loop (`ArticleAnalyzer.process_single_file`)

The `while retry_count < max_retries` loop (local `max_retries = 3`)
around one `format_article` + `call_api` round.  `fmt rc` tells whether
`format_article` returned a non-empty prompt on iteration `rc`; `api rc`
is what `call_api` did on iteration `rc`: returned a value, returned
`None` without raising, or raised an exception (classified by the
substring tests on the lowercased message). -/

/-- Exception classification of `process_single_file`'s `except` clause. -/
inductive PsfExc where
  | blockedPrompt
  | candidatesEmpty
  | rateLimit
  | otherExc (msg : String)
deriving DecidableEq, Repr

/-- Behaviour of one `call_api` invocation as seen by the caller. -/
inductive ApiCallResult where
  | ret (r : Option String)
  | exc (e : PsfExc)
deriving DecidableEq, Repr

/-- The retry loop of `process_single_file`, structurally on remaining
iterations (`fuel = max_retries - retry_count`), returning the result,
the number of `call_api` rounds made, and the `(retry_count + 1) * 60`
sleeps performed.  A falsy formatted prompt returns `(None, None)` at
once; a truthy `call_api` result returns it; a `None` result falls
through to `retry_count += 1` with no sleep; a raised "blocked prompt"
returns `(None, None)` at once; any other exception sleeps
`(retry_count + 1) * 60` unless this was the last iteration
(`retry_count < max_retries - 1`, i.e. remaining fuel positive). -/
def psf_go (fmt : Nat → Bool) (api : Nat → ApiCallResult) :
    Nat → Nat → Option String × Nat × List Nat
  | 0, _ => (none, 0, [])
  | fuel + 1, rc =>
    if fmt rc = false then (none, 0, [])
    else
      match api rc with
      | .ret (some r) => (some r, 1, [])
      | .ret none =>
          let p := psf_go fmt api fuel (rc + 1)
          (p.1, p.2.1 + 1, p.2.2)
      | .exc .blockedPrompt => (none, 1, [])
      | .exc _ =>
          let p := psf_go fmt api fuel (rc + 1)
          (p.1, p.2.1 + 1, (if 0 < fuel then [(rc + 1) * 60] else []) ++ p.2.2)

/-- Model of `ArticleAnalyzer.process_single_file`'s loop with its hardcoded
`max_retries = 3`. -/
def process_single_file (fmt : Nat → Bool) (api : Nat → ApiCallResult) :
    Option String × Nat × List Nat :=
  psf_go fmt api 3 0

/-- Total remote attempts incurred by one Job when each of the
`call_api` rounds made by `process_single_file` runs the Gemini retry
loop over its own transport `tf j`. -/
def geminiJobRemoteAttempts (tf : Nat → Nat → RemoteOutcome) (fmt : Nat → Bool) :
    Nat :=
  let api := fun j => ApiCallResult.ret ((GeminiAPI.call_api (tf j) 3).result)
  ((List.range (process_single_file fmt api).2.1).map
    (fun j => (GeminiAPI.call_api (tf j) 3).attempts)).sum

/-! Wait-discipline lemmas. -/

lemma chkLater_pf_go (outcome : String → Bool) (choice : Nat → Bool)
    (intr : Nat → Bool) :
    ∀ rest i k consec, 0 < i →
    chkLater (pf_go outcome choice intr rest i k consec).2 = true := by
  intro rest
  induction rest with
  | nil => intro i k consec hi; simp [pf_go, chkLater]
  | cons f rest ih =>
    intro i k consec hi
    rw [pf_go]
    split
    · simp [chkLater]
    · simp only [if_pos hi]
      by_cases ho : outcome f = true
      · simp only [ho, if_pos]
        simpa [chkLater] using ih (i + 1) k 0 (by omega)
      · simp only [Bool.not_eq_true] at ho
        simp only [ho]
        by_cases hc : consec + 1 ≥ 3
        · rw [if_pos hc]
          by_cases hch : choice k = true
          · simp only [hch, if_pos]
            simpa [chkLater] using ih (i + 1) (k + 1) 0 (by omega)
          · simp only [Bool.not_eq_true] at hch
            simp [hch, chkLater]
        · rw [if_neg hc]
          simpa [chkLater] using ih (i + 1) k (consec + 1) (by omega)

lemma chkPass_pf_go (outcome : String → Bool) (choice : Nat → Bool)
    (intr : Nat → Bool) (files : List String) (k consec : Nat) :
    chkPass (pf_go outcome choice intr files 0 k consec).2 = true := by
  cases files with
  | nil => simp [pf_go, chkPass]
  | cons f rest =>
    rw [pf_go]
    have hguard : ¬ (0 < 0 ∧ intr 0 = true) := by omega
    rw [if_neg hguard]
    simp only [Nat.lt_irrefl, if_neg]
    by_cases ho : outcome f = true
    · simp only [ho, if_pos]
      simpa [chkPass] using chkLater_pf_go outcome choice intr rest 1 k 0 (by omega)
    · simp only [Bool.not_eq_true] at ho
      simp only [ho]
      by_cases hc : consec + 1 ≥ 3
      · rw [if_pos hc]
        by_cases hch : choice k = true
        · simp only [hch, if_pos]
          simpa [chkPass, chkLater] using
            chkLater_pf_go outcome choice intr rest 1 (k + 1) 0 (by omega)
        · simp only [Bool.not_eq_true] at hch
          simp [hch, chkPass, chkLater]
      · rw [if_neg hc]
        simpa [chkPass] using
          chkLater_pf_go outcome choice intr rest 1 k (consec + 1) (by omega)

lemma chkLater_rft_go (outcome : String → Bool) (intr : Nat → Bool) :
    ∀ rest i, 0 < i →
    chkLater (exEvents (rft_go outcome intr rest i)) = true := by
  intro rest
  induction rest with
  | nil => intro i hi; simp [rft_go, exEvents, chkLater]
  | cons f rest ih =>
    intro i hi
    rw [rft_go]
    split
    · simp [exEvents, chkLater]
    · simp only [if_pos hi]
      have h := ih (i + 1) (by omega)
      cases hres : rft_go outcome intr rest (i + 1) with
      | ok evs =>
        rw [hres] at h
        simpa [exEvents, chkLater] using h
      | error evs =>
        rw [hres] at h
        simpa [exEvents, chkLater] using h

lemma chkPass_rft_go (outcome : String → Bool) (intr : Nat → Bool)
    (files : List String) :
    chkPass (exEvents (rft_go outcome intr files 0)) = true := by
  cases files with
  | nil => simp [rft_go, exEvents, chkPass]
  | cons f rest =>
    rw [rft_go]
    have hguard : ¬ (0 < 0 ∧ intr 0 = true) := by omega
    rw [if_neg hguard]
    simp only [Nat.lt_irrefl, if_neg]
    have h := chkLater_rft_go outcome intr rest 1 (by omega)
    cases hres : rft_go outcome intr rest 1 with
    | ok evs =>
      rw [hres] at h
      simpa [exEvents, chkPass] using h
    | error evs =>
      rw [hres] at h
      simpa [exEvents, chkPass] using h

/-- C6. In the main pass and in the retry pass alike, `RateLimiter.wait`
is invoked immediately before processing each Job except the first Job
of the pass, and never before the first Job. -/
theorem wait_discipline_both_passes (outcome outcomeR : String → Bool)
    (choice : Nat → Bool) (intr intrR : Nat → Bool)
    (files failed : List String) :
    chkPass (process_files_pass outcome choice intr files).2 = true
    ∧ chkPass (exEvents (retry_failed_tasks outcomeR intrR failed)) = true :=
  ⟨chkPass_pf_go outcome choice intr files 0 0,
   chkPass_rft_go outcomeR intrR failed⟩

/-! Retry-pass refinement (C5). -/

lemma rft_go_no_intr (outcome : String → Bool) :
    ∀ rest i, 0 < i →
    rft_go outcome (fun _ => false) rest i = .ok (specRetryLater outcome rest) := by
  intro rest
  induction rest with
  | nil => intro i hi; simp [rft_go, specRetryLater]
  | cons f rest ih =>
    intro i hi
    rw [rft_go]
    rw [if_neg (by simp)]
    rw [ih (i + 1) (by omega)]
    simp [specRetryLater, if_pos hi]

lemma processedFiles_specRetryLater (outcome : String → Bool) :
    ∀ l, processedFiles (specRetryLater outcome l) = l := by
  intro l
  induction l with
  | nil => simp [specRetryLater, processedFiles]
  | cons g rest ih => simp [specRetryLater, processedFiles, ih]

lemma promptCount_specRetryLater (outcome : String → Bool) :
    ∀ l, promptCount (specRetryLater outcome l) = 0 := by
  intro l
  induction l with
  | nil => simp [specRetryLater, promptCount]
  | cons g rest ih => simp [specRetryLater, promptCount, ih]

/-- C5. An uninterrupted retry pass produces exactly the spec's per-Job
trace over the failed subset: each failed Job is processed in order
(wait before every Job except the first), the Jobs processed are exactly
the failed subset and nothing else, and no consecutive-failure decision
prompt occurs.  The failed list is only read, never written, by the
pass. -/
theorem retry_pass_exact (outcome : String → Bool) (failed : List String) :
    retry_failed_tasks outcome (fun _ => false) failed =
      .ok (specRetryTrace outcome failed)
    ∧ processedFiles (specRetryTrace outcome failed) = failed
    ∧ promptCount (specRetryTrace outcome failed) = 0 := by
  refine ⟨?_, ?_, ?_⟩
  · cases failed with
    | nil => simp [retry_failed_tasks, rft_go, specRetryTrace]
    | cons f rest =>
      rw [retry_failed_tasks, rft_go]
      rw [if_neg (by simp)]
      rw [rft_go_no_intr outcome rest 1 (by omega)]
      simp [specRetryTrace]
  · cases failed with
    | nil => simp [specRetryTrace, processedFiles]
    | cons f rest =>
      simp [specRetryTrace, processedFiles,
        processedFiles_specRetryLater outcome rest]
  · cases failed with
    | nil => simp [specRetryTrace, promptCount]
    | cons f rest =>
      simp [specRetryTrace, promptCount, promptCount_specRetryLater outcome rest]

/-- C4. The consecutive-failure breaker: when a Job fails and the counter
reaches 3, exactly one decision prompt is emitted before anything
further happens; answering yes continues the pass with the counter reset
to 0; answering no halts the pass at once, with the remaining Jobs
neither processed nor added to the failed list; and a Job success resets
the counter to 0. -/
theorem consecutive_failure_breaker (outcome : String → Bool)
    (choice : Nat → Bool) (intr : Nat → Bool) (f g : String)
    (rest : List String) (i k consec : Nat)
    (hni : ¬ (0 < i ∧ intr i = true))
    (hf : outcome f = false) (hc : 2 ≤ consec) (hg : outcome g = true) :
    (choice k = true →
      pf_go outcome choice intr (f :: rest) i k consec =
        (f :: (pf_go outcome choice intr rest (i + 1) (k + 1) 0).1,
         (if 0 < i then [Event.wait f] else [])
           ++ [.process f false, .prompt true]
           ++ (pf_go outcome choice intr rest (i + 1) (k + 1) 0).2))
    ∧ (choice k = false →
      pf_go outcome choice intr (f :: rest) i k consec =
        ([f], (if 0 < i then [Event.wait f] else [])
           ++ [.process f false, .prompt false]))
    ∧ pf_go outcome choice intr (g :: rest) i k consec =
        ((pf_go outcome choice intr rest (i + 1) k 0).1,
         (if 0 < i then [Event.wait g] else [])
           ++ [.process g true]
           ++ (pf_go outcome choice intr rest (i + 1) k 0).2) := by
  have h3 : consec + 1 ≥ 3 := by omega
  refine ⟨?_, ?_, ?_⟩
  · intro hch
    rw [pf_go, if_neg hni]
    simp [hf, hch, h3]
  · intro hch
    rw [pf_go, if_neg hni]
    simp [hf, hch, h3]
  · rw [pf_go, if_neg hni]
    simp [hg]

/-- Witness for C4: third back-to-back failure on file "c" at index 2,
prompt answered yes (`choice 0 = true`), then a success resetting the
counter. -/
theorem consecutive_failure_breaker_witness :
    let outcome : String → Bool := fun s => s == "g"
    let choice : Nat → Bool := fun _ => true
    let intr : Nat → Bool := fun _ => false
    (choice 0 = true →
      pf_go outcome choice intr ["c", "d"] 2 0 2 =
        ("c" :: (pf_go outcome choice intr ["d"] 3 1 0).1,
         (if 0 < 2 then [Event.wait "c"] else [])
           ++ [.process "c" false, .prompt true]
           ++ (pf_go outcome choice intr ["d"] 3 1 0).2))
    ∧ (choice 0 = false →
      pf_go outcome choice intr ["c", "d"] 2 0 2 =
        (["c"], (if 0 < 2 then [Event.wait "c"] else [])
           ++ [.process "c" false, .prompt false]))
    ∧ pf_go outcome choice intr ["g", "d"] 2 0 2 =
        ((pf_go outcome choice intr ["d"] 3 0 0).1,
         (if 0 < 2 then [Event.wait "g"] else [])
           ++ [.process "g" true]
           ++ (pf_go outcome choice intr ["d"] 3 0 0).2) :=
  consecutive_failure_breaker (fun s => s == "g") (fun _ => true)
    (fun _ => false) "c" "g" ["d"] 2 0 2
    (by simp) (by decide) (by omega) (by decide)

/-- C7, counterexample: in the retry pass the wait is not wrapped in
`try/except KeyboardInterrupt`; with failed list `["a", "b"]` and an
interrupt raised during the wait before index 1, the interrupt
propagates out of the pass (`Except.error`) instead of being caught and
ending the pass gracefully. -/
theorem interrupt_retry_counterexample :
    retry_failed_tasks (fun _ => true) (fun i => i == 1) ["a", "b"] =
      .error [.process "a" true]
    ∧ passCaught
        (retry_failed_tasks (fun _ => true) (fun i => i == 1) ["a", "b"]) = false := by
  constructor
  · rfl
  · rfl

/-- C7, amended: a user interrupt during the waiting phase of the MAIN
pass is caught and ends that pass gracefully — the remaining Jobs are
neither processed nor added to the failed list; in the RETRY pass the
interrupt is not caught and propagates out of the pass. -/
theorem interrupt_during_wait (outcome : String → Bool) (choice : Nat → Bool)
    (intr : Nat → Bool) (f : String) (rest : List String) (i k consec : Nat)
    (hi : 0 < i) (hintr : intr i = true) :
    pf_go outcome choice intr (f :: rest) i k consec = ([], [.interrupted])
    ∧ rft_go outcome intr (f :: rest) i = .error [] := by
  constructor
  · rw [pf_go, if_pos ⟨hi, hintr⟩]
  · rw [rft_go, if_pos ⟨hi, hintr⟩]

/-- Witness for C7's amended theorem: interrupt during the wait before
index 1 of a pass over `["b", "c"]`. -/
theorem interrupt_during_wait_witness :
    pf_go (fun _ => true) (fun _ => true) (fun i => i == 1) ["b", "c"] 1 0 0
      = ([], [.interrupted])
    ∧ rft_go (fun _ => true) (fun i => i == 1) ["b", "c"] 1 = .error [] :=
  interrupt_during_wait (fun _ => true) (fun _ => true) (fun i => i == 1)
    "b" ["c"] 1 0 0 (by omega) (by decide)

/-- C9, counterexample: choosing "retry after longer wait" opens the
config dialog prefilled with the doubled value, but the new interval is
whatever the user enters — entering 5 with a previous `wait_minutes = 1`
makes the interval 5, not 2. -/
theorem double_wait_counterexample :
    ((retryDecision ⟨⟨1, true⟩, 0⟩ (some false) (some 5) none).1).config.wait_minutes
      = 5
    ∧ (5 : ℚ) ≠ 2 * 1 := by
  constructor
  · norm_num [retryDecision, RateLimiter.update_config, showConfigDialog]
  · norm_num

/-- C9, amended: choosing "retry after longer wait" re-configures the
rate limiter through the dialog whose prefilled default is exactly twice
the previous `wait_minutes`, and then runs the retry pass; when the user
accepts the default, the active interval becomes exactly twice its
previous value. -/
theorem double_wait_default (rl : RateLimiter) (up : Option Bool) :
    ((retryDecision rl (some false) none up).1).config.wait_minutes
      = 2 * rl.config.wait_minutes
    ∧ (retryDecision rl (some false) none up).2 = true := by
  refine ⟨?_, rfl⟩
  by_cases h : rl.config.wait_minutes * 2 = 0
  · have h0 : rl.config.wait_minutes = 0 := by linarith
    simp [retryDecision, RateLimiter.update_config, showConfigDialog, h, h0]
  · simp only [retryDecision, RateLimiter.update_config, showConfigDialog,
      if_neg h, if_pos trivial, Option.getD_none]
    ring

/-- C10. `process_single_file` wraps `call_api` in its own loop of up to
3 iterations; when `call_api` returns `None` without raising, the loop
re-invokes it immediately with no intervening sleep; hence a Job whose
remote calls always fail transiently makes 3 `call_api` rounds of 3
remote attempts each — 9 remote attempts in total — before the Job is
given up as failed. -/
theorem per_job_nested_retry (fmt : Nat → Bool) (api : Nat → ApiCallResult)
    (tf : Nat → Nat → RemoteOutcome) (fuel rc : Nat)
    (hfmt : ∀ n, fmt n = true) (hapi : api rc = .ret none)
    (htf : ∀ j a, tf j a = .failure .serviceUnavailable) :
    psf_go fmt api (fuel + 1) rc =
      ((psf_go fmt api fuel (rc + 1)).1,
       (psf_go fmt api fuel (rc + 1)).2.1 + 1,
       (psf_go fmt api fuel (rc + 1)).2.2)
    ∧ process_single_file fmt
        (fun j => .ret ((GeminiAPI.call_api (tf j) 3).result)) = (none, 3, [])
    ∧ geminiJobRemoteAttempts tf fmt = 9 := by
  have hnull : ∀ j, (GeminiAPI.call_api (tf j) 3).result = none := by
    intro j
    rw [GeminiAPI.call_api,
      gemini_go_exhaust (tf j) 3 0 (fun a _ _ => htf j a)]
  have hatt : ∀ j, (GeminiAPI.call_api (tf j) 3).attempts = 3 := by
    intro j
    rw [GeminiAPI.call_api,
      gemini_go_exhaust (tf j) 3 0 (fun a _ _ => htf j a)]
  have hpsf : ∀ fuel' rc',
      psf_go fmt (fun j => .ret ((GeminiAPI.call_api (tf j) 3).result))
        fuel' rc' = (none, fuel', []) := by
    intro fuel'
    induction fuel' with
    | zero => intro rc'; simp [psf_go]
    | succ fu ih =>
      intro rc'
      rw [psf_go]
      rw [if_neg (by simp [hfmt rc'])]
      rw [hnull rc']
      simp [ih (rc' + 1)]
  refine ⟨?_, ?_, ?_⟩
  · rw [psf_go]
    rw [if_neg (by simp [hfmt rc])]
    rw [hapi]
  · rw [process_single_file, hpsf 3 0]
  · rw [geminiJobRemoteAttempts]
    simp only [process_single_file, hpsf 3 0]
    simp [hatt, List.range, List.range.loop]

/-- Witness for C10: every remote attempt of every round raises
`ServiceUnavailable`. -/
theorem per_job_nested_retry_witness :
    psf_go (fun _ => true) (fun _ => .ret none) 3 0 =
      ((psf_go (fun _ => true) (fun _ => .ret none) 2 1).1,
       (psf_go (fun _ => true) (fun _ => .ret none) 2 1).2.1 + 1,
       (psf_go (fun _ => true) (fun _ => .ret none) 2 1).2.2)
    ∧ process_single_file (fun _ => true)
        (fun _ => .ret ((GeminiAPI.call_api
          (fun _ => .failure .serviceUnavailable) 3).result)) = (none, 3, [])
    ∧ geminiJobRemoteAttempts (fun _ _ => .failure .serviceUnavailable)
        (fun _ => true) = 9 :=
  per_job_nested_retry (fun _ => true) (fun _ => .ret none)
    (fun _ _ => .failure .serviceUnavailable) 2 0
    (fun _ => rfl) rfl (fun _ _ => rfl)

end Pythion
